import Mathlib

/-!
Verification of the Ricart-Agrawala mutual-exclusion client
(`src/client.py`, `src/lamport_clock.py`) of the distributed printing
system, as a shallow embedding in Lean 4.

The stateful Python classes are embedded as pure functions over an
explicit state record `ClientState` mirroring the fields of
`IntelligentClient`; each method becomes a function
`ClientState → ... → ClientState × result`.  Python integers are `Int`;
Python lists are Lean `List`s; the tuples the code appends to
`deferred_requests` are `(client_id, timestamp)` pairs exactly as in
`client.py` line 70.
-/

namespace DistributedPrinting

/-! ## LamportClock (`src/lamport_clock.py`)

The clock's single field `time` is embedded as an `Int`; each method is a
function from the old time to the new time (the Python methods return the
new time, which here is the function's value). -/

/-- Python `LamportClock.increment`: `self.time += 1; return self.time`. -/
def clockIncrement (t : Int) : Int := t + 1

/-- Python `LamportClock.update(received_time)`:
`self.time = max(self.time, received_time) + 1; return self.time`. -/
def clockUpdate (t received_time : Int) : Int := max t received_time + 1

/-- Python `LamportClock.get_time`: returns `self.time` unchanged. -/
def getTime (t : Int) : Int := t

/-- One call made to a Lamport clock: `increment()` or `update(x)`. -/
inductive ClockOp where
  | inc : ClockOp
  | upd (x : Int) : ClockOp
deriving Repr, DecidableEq

/-- The new clock time after one call. -/
def applyClockOp (t : Int) : ClockOp → Int
  | .inc => clockIncrement t
  | .upd x => clockUpdate t x

/-- The clock time after a sequence of calls. -/
def runClock (t : Int) : List ClockOp → Int
  | [] => t
  | op :: ops => runClock (applyClockOp t op) ops

/-! ## The request order used by the grant decision

`client.py` lines 54-58 compare Python tuples
`(requesting_timestamp, requesting_client) < (request_timestamp, client_id)`,
which is lexicographic comparison. -/

/-- The lexicographic comparison of `(timestamp, id)` pairs performed by
Python's tuple `<` in the `should_grant` expression. -/
def reqLtb (a b : Int × Int) : Bool :=
  a.1 < b.1 || (a.1 == b.1 && a.2 < b.2)

/-- Propositional form of `reqLtb`. -/
def reqLt (a b : Int × Int) : Prop :=
  a.1 < b.1 ∨ (a.1 = b.1 ∧ a.2 < b.2)

instance (a b : Int × Int) : Decidable (reqLt a b) := by
  unfold reqLt; infer_instance

theorem reqLtb_eq_true_iff (a b : Int × Int) : reqLtb a b = true ↔ reqLt a b := by
  simp [reqLtb, reqLt]

/-! ## Coordinator state (`IntelligentClient.__init__`) -/

/-- The mutable fields of `IntelligentClient` relevant to the protocol:
the Lamport clock, the Ricart-Agrawala bookkeeping, and the static
configuration (`client_id`, `other_clients` as `(id, address)` pairs).
`deferred_requests` holds `(client_id, timestamp)` pairs as appended at
`client.py` line 70. -/
structure ClientState where
  client_id : Int
  other_clients : List (Int × String)
  clock : Int
  requesting : Bool
  request_timestamp : Int
  request_number : Int
  replies_received : Int
  deferred_requests : List (Int × Int)
deriving Repr, DecidableEq

/-- The state of a freshly constructed `IntelligentClient`. -/
def initState (client_id : Int) (other_clients : List (Int × String)) : ClientState :=
  { client_id := client_id
    other_clients := other_clients
    clock := 0
    requesting := false
    request_timestamp := 0
    request_number := 0
    replies_received := 0
    deferred_requests := [] }

/-- The wire response of `RequestAccess` (`AccessResponse`). -/
structure AccessResponse where
  access_granted : Bool
  lamport_timestamp : Int
deriving Repr, DecidableEq

/-- The wire response of `ReleaseAccess` (`ReleaseResponse`). -/
structure ReleaseResponse where
  acknowledged : Bool
deriving Repr, DecidableEq

/-! ## Inbound handlers (`MutualExclusionServiceImpl`) -/

/-- Handler `MutualExclusionServiceImpl.RequestAccess` (`client.py` lines 34-78):
update the clock with the request's timestamp, decide
`should_grant = not requesting or (remote_ts, remote_id) < (request_timestamp, client_id)`,
on grant return `granted=True`, otherwise append
`(remote_id, remote_ts)` to `deferred_requests` and return
`granted=False`; either way the response timestamp is a fresh
`clock.increment()`. -/
def requestAccess (s : ClientState) (remote_client_id remote_timestamp : Int) :
    ClientState × AccessResponse :=
  let s := { s with clock := clockUpdate s.clock remote_timestamp }
  let should_grant : Bool :=
    !s.requesting ||
      reqLtb (remote_timestamp, remote_client_id) (s.request_timestamp, s.client_id)
  if should_grant then
    let response_timestamp := clockIncrement s.clock
    ({ s with clock := response_timestamp },
     { access_granted := true, lamport_timestamp := response_timestamp })
  else
    let s := { s with
      deferred_requests := s.deferred_requests ++ [(remote_client_id, remote_timestamp)] }
    let response_timestamp := clockIncrement s.clock
    ({ s with clock := response_timestamp },
     { access_granted := false, lamport_timestamp := response_timestamp })

/-- Handler `MutualExclusionServiceImpl.ReleaseAccess` (`client.py` lines 80-100):
update the clock with the release's timestamp, take a fresh
`clock.increment()` for the (unsent) response timestamp, and return
`acknowledged=True`; no other field is touched. -/
def releaseAccess (s : ClientState) (remote_timestamp : Int) :
    ClientState × ReleaseResponse :=
  let s := { s with clock := clockUpdate s.clock remote_timestamp }
  let s := { s with clock := clockIncrement s.clock }
  (s, { acknowledged := true })

/-! ## Outbound side (`IntelligentClient`) -/

/-- The wire request of `RequestAccess` (`AccessRequest`). -/
structure AccessRequestMsg where
  client_id : Int
  lamport_timestamp : Int
  request_number : Int
deriving Repr, DecidableEq

/-- The locked prologue of `request_critical_section`
(`client.py` lines 174-181): `requesting = True`, `request_number += 1`,
`request_timestamp = clock.increment()`, `replies_received = 0`. -/
def beginRequest (s : ClientState) : ClientState :=
  let clock := clockIncrement s.clock
  { s with
    requesting := true
    request_number := s.request_number + 1
    clock := clock
    request_timestamp := clock
    replies_received := 0 }

/-- The access-request messages broadcast by `request_critical_section`
(lines 186-187): one per entry of `other_clients`, each carrying the
captured `request_timestamp` and `request_number`, addressed to that
peer's id. -/
def sentRequests (s : ClientState) : List (Int × AccessRequestMsg) :=
  s.other_clients.map fun other =>
    (other.1,
     { client_id := s.client_id
       lamport_timestamp := s.request_timestamp
       request_number := s.request_number })

/-- The outcome of one `stub.RequestAccess(..., timeout=5.0)` call inside
`send_access_request`: a well-formed response (granted or deferred), or a
`grpc.RpcError` (timeout, connection refused). -/
inductive SendOutcome where
  | response (resp : AccessResponse) : SendOutcome
  | rpcError : SendOutcome
deriving Repr, DecidableEq

/-- The state effect of `IntelligentClient.send_access_request`
(`client.py` lines 199-242) given the outcome of its RPC call: on a
response, update the clock from the response timestamp and increment
`replies_received` in both the granted and the deferred branch; on
`grpc.RpcError`, increment `replies_received` ("count as received to
avoid blocking"). -/
def sendAccessRequest (s : ClientState) (o : SendOutcome) : ClientState :=
  match o with
  | .response resp =>
    let s := { s with clock := clockUpdate s.clock resp.lamport_timestamp }
    if resp.access_granted then
      { s with replies_received := s.replies_received + 1 }
    else
      { s with replies_received := s.replies_received + 1 }
  | .rpcError =>
    { s with replies_received := s.replies_received + 1 }

/-- The broadcast loop of `request_critical_section`: one
`send_access_request` per configured peer, each resolving to one
`SendOutcome`. -/
def sendPhase (s : ClientState) (outcomes : List SendOutcome) : ClientState :=
  outcomes.foldl sendAccessRequest s

/-- The exit condition of the wait loop at `client.py` lines 190-195:
`replies_received >= len(other_clients)`. -/
def quorumReached (s : ClientState) : Bool :=
  s.replies_received ≥ (s.other_clients.length : Int)

/-- Method `IntelligentClient.request_critical_section` (`client.py` lines
170-197), with `outcomes` the per-peer results of the broadcast (one per
`send_access_request` call, each of which terminates with a response or
an `RpcError` under its 5-second timeout): the locked prologue, the
broadcast, then the wait loop, which returns (`some`) exactly when
`replies_received >= len(other_clients)` and otherwise polls forever
(`none`). -/
def requestCriticalSection (s : ClientState) (outcomes : List SendOutcome) :
    Option ClientState :=
  let s := sendPhase (beginRequest s) outcomes
  if quorumReached s then some s else none

/-- Method `IntelligentClient.release_critical_section` (`client.py` lines
244-262): under the lock set `requesting = False`, copy and clear
`deferred_requests`, and take `release_timestamp = clock.increment()`;
the copied queue and the release timestamp are returned (they drive the
release notifications and the logged deferred grants, which do not touch
coordinator state). -/
def releaseCriticalSection (s : ClientState) : ClientState × List (Int × Int) × Int :=
  let deferred := s.deferred_requests
  let s := { s with requesting := false, deferred_requests := [] }
  let release_timestamp := clockIncrement s.clock
  ({ s with clock := release_timestamp }, deferred, release_timestamp)

/-! ## Operations on one coordinator, for the state invariant -/

/-- One state-mutating operation on a peer's coordinator state: the
locked prologue of its own request, an inbound `RequestAccess`, an
inbound `ReleaseAccess`, the completion of one outbound
`send_access_request`, or its own `release_critical_section`. -/
inductive CoordOp where
  | beginReq : CoordOp
  | handleReq (remote_client_id remote_timestamp : Int) : CoordOp
  | handleRel (remote_timestamp : Int) : CoordOp
  | sendResult (o : SendOutcome) : CoordOp
  | release : CoordOp
deriving Repr, DecidableEq

/-- The state reached after one operation. -/
def stepOp (s : ClientState) : CoordOp → ClientState
  | .beginReq => beginRequest s
  | .handleReq cid ts => (requestAccess s cid ts).1
  | .handleRel ts => (releaseAccess s ts).1
  | .sendResult o => sendAccessRequest s o
  | .release => (releaseCriticalSection s).1

/-- The state reached after a sequence of operations. -/
def runOps (s : ClientState) (ops : List CoordOp) : ClientState :=
  ops.foldl stepOp s

/-! ## Lock discipline (`client.py`, `with self.lock` / `with self.client.lock`)

A static transcription of every read and write of the shared coordinator
fields named by the specification — `requesting`, `request_timestamp`,
`replies_received`, `deferred_requests`, and the Lamport clock — in the
code paths of `client.py`, together with whether the access happens
inside a `with ... lock:` block.  Accesses made through
`IntelligentClient.log` (which reads `self.clock.get_time()` at line
168) are recorded at the call site of `log`, with the lock status of
that call site. -/

/-- A shared coordinator field of `IntelligentClient`. -/
inductive SField where
  | requestingF : SField
  | requestTimestampF : SField
  | repliesReceivedF : SField
  | deferredQueueF : SField
  | clockF : SField
deriving Repr, DecidableEq

/-- A code path of `client.py` that touches shared coordinator state. -/
inductive CodePath where
  | requestAccessHandler : CodePath
  | releaseAccessHandler : CodePath
  | requestCS : CodePath
  | sendAccessReq : CodePath
  | releaseCS : CodePath
  | sendReleaseNotif : CodePath
  | sendToPrinter : CodePath
  | showStatus : CodePath
deriving Repr, DecidableEq

/-- Whether an access reads or writes the field. -/
inductive AccessMode where
  | read : AccessMode
  | write : AccessMode
deriving Repr, DecidableEq

/-- One access of a shared coordinator field at a source line of
`client.py`, and whether the coordinator lock is held there. -/
structure FieldAccess where
  path : CodePath
  line : Nat
  field : SField
  mode : AccessMode
  underLock : Bool
deriving Repr, DecidableEq

/-- Every access of the five shared fields in `client.py`, by code path
and line.  `clock.update`/`clock.increment` are writes, `get_time` (via
`log`) is a read. -/
def accessTable : List FieldAccess :=
  [ -- MutualExclusionServiceImpl.RequestAccess (lines 34-78); the
    -- `with self.client.lock` block spans lines 48-78
    ⟨.requestAccessHandler, 46, .clockF, .write, false⟩,
    ⟨.requestAccessHandler, 55, .requestingF, .read, true⟩,
    ⟨.requestAccessHandler, 57, .requestTimestampF, .read, true⟩,
    ⟨.requestAccessHandler, 62, .clockF, .write, true⟩,
    ⟨.requestAccessHandler, 63, .clockF, .read, true⟩,
    ⟨.requestAccessHandler, 70, .deferredQueueF, .write, true⟩,
    ⟨.requestAccessHandler, 71, .clockF, .read, true⟩,
    ⟨.requestAccessHandler, 74, .clockF, .write, true⟩,
    -- MutualExclusionServiceImpl.ReleaseAccess (lines 80-100); the
    -- `with self.client.lock` block spans lines 94-100
    ⟨.releaseAccessHandler, 92, .clockF, .write, false⟩,
    ⟨.releaseAccessHandler, 95, .clockF, .read, true⟩,
    ⟨.releaseAccessHandler, 96, .clockF, .write, true⟩,
    -- IntelligentClient.request_critical_section (lines 170-197)
    ⟨.requestCS, 175, .requestingF, .write, true⟩,
    ⟨.requestCS, 177, .clockF, .write, true⟩,
    ⟨.requestCS, 177, .requestTimestampF, .write, true⟩,
    ⟨.requestCS, 178, .repliesReceivedF, .write, true⟩,
    ⟨.requestCS, 181, .requestTimestampF, .read, true⟩,
    ⟨.requestCS, 183, .clockF, .read, false⟩,
    ⟨.requestCS, 193, .repliesReceivedF, .read, true⟩,
    ⟨.requestCS, 197, .clockF, .read, false⟩,
    -- IntelligentClient.send_access_request (lines 199-242)
    ⟨.sendAccessReq, 223, .clockF, .write, false⟩,
    ⟨.sendAccessReq, 228, .repliesReceivedF, .write, true⟩,
    ⟨.sendAccessReq, 229, .repliesReceivedF, .read, true⟩,
    ⟨.sendAccessReq, 229, .clockF, .read, true⟩,
    ⟨.sendAccessReq, 234, .repliesReceivedF, .write, true⟩,
    ⟨.sendAccessReq, 235, .repliesReceivedF, .read, true⟩,
    ⟨.sendAccessReq, 235, .clockF, .read, true⟩,
    ⟨.sendAccessReq, 239, .clockF, .read, false⟩,
    ⟨.sendAccessReq, 242, .repliesReceivedF, .write, true⟩,
    -- IntelligentClient.release_critical_section (lines 244-262)
    ⟨.releaseCS, 249, .requestingF, .write, true⟩,
    ⟨.releaseCS, 250, .deferredQueueF, .read, true⟩,
    ⟨.releaseCS, 251, .deferredQueueF, .write, true⟩,
    ⟨.releaseCS, 252, .clockF, .write, true⟩,
    ⟨.releaseCS, 254, .clockF, .read, false⟩,
    ⟨.releaseCS, 262, .clockF, .read, false⟩,
    -- IntelligentClient.send_release_notification (lines 264-286)
    ⟨.sendReleaseNotif, 286, .clockF, .read, false⟩,
    -- IntelligentClient.send_to_printer (lines 288-323)
    ⟨.sendToPrinter, 300, .clockF, .write, false⟩,
    ⟨.sendToPrinter, 309, .clockF, .read, false⟩,
    ⟨.sendToPrinter, 313, .clockF, .write, false⟩,
    ⟨.sendToPrinter, 317, .clockF, .read, false⟩,
    -- IntelligentClient.show_status (lines 377-387)
    ⟨.showStatus, 383, .clockF, .read, false⟩,
    ⟨.showStatus, 384, .requestingF, .read, false⟩,
    ⟨.showStatus, 386, .deferredQueueF, .read, false⟩ ]

/-! ## Helper lemmas -/

theorem lt_applyClockOp (t : Int) (op : ClockOp) : t < applyClockOp t op := by
  cases op with
  | inc => simp [applyClockOp, clockIncrement]
  | upd x => simp only [applyClockOp, clockUpdate]; omega

theorem le_runClock (t : Int) (ops : List ClockOp) : t ≤ runClock t ops := by
  induction ops generalizing t with
  | nil => simp [runClock]
  | cons op ops ih =>
    calc t ≤ applyClockOp t op := le_of_lt (lt_applyClockOp t op)
    _ ≤ runClock (applyClockOp t op) ops := ih _

theorem runClock_append (t : Int) (ops₁ ops₂ : List ClockOp) :
    runClock t (ops₁ ++ ops₂) = runClock (runClock t ops₁) ops₂ := by
  induction ops₁ generalizing t with
  | nil => simp [runClock]
  | cons op ops ih => simp [runClock, ih]

/-- C5: for a `LamportClock` at time `t`, `increment` returns `t + 1`,
`update x` returns `max t x + 1`, `get_time` returns `t` unchanged; over
any sequence of calls the value is non-decreasing, and each single call
(`increment` or `update`, with an arbitrary integer argument) strictly
increases it. -/
theorem lamportClock_spec (t x : Int) (op : ClockOp) (ops : List ClockOp) :
    clockIncrement t = t + 1 ∧
    clockUpdate t x = max t x + 1 ∧
    getTime t = t ∧
    t < applyClockOp t op ∧
    t ≤ runClock t ops ∧
    runClock t ops < runClock t (ops ++ [op]) := by
  refine ⟨rfl, rfl, rfl, lt_applyClockOp t op, le_runClock t ops, ?_⟩
  rw [runClock_append]
  exact lt_of_lt_of_le (lt_applyClockOp _ op) (le_runClock _ [])

/-- C4: the relation `(t1, p1) < (t2, p2) ⟺ t1 < t2 ∨ (t1 = t2 ∧ p1 < p2)`
computed by the grant decision's tuple comparison is a strict total
order on request records: irreflexive, transitive, asymmetric (so no two
records compare below each other), and total over records with distinct
peer ids; and the Boolean comparison the code evaluates agrees with it. -/
theorem reqLt_strict_total_order :
    (∀ a : Int × Int, ¬ reqLt a a) ∧
    (∀ a b c : Int × Int, reqLt a b → reqLt b c → reqLt a c) ∧
    (∀ a b : Int × Int, reqLt a b → ¬ reqLt b a) ∧
    (∀ a b : Int × Int, a.2 ≠ b.2 → reqLt a b ∨ reqLt b a) ∧
    (∀ a b : Int × Int, reqLtb a b = true ↔ reqLt a b) := by
  refine ⟨?_, ?_, ?_, ?_, fun a b => reqLtb_eq_true_iff a b⟩
  · rintro ⟨t, p⟩ h
    simp only [reqLt] at h
    omega
  · rintro ⟨t1, p1⟩ ⟨t2, p2⟩ ⟨t3, p3⟩ h1 h2
    simp only [reqLt] at h1 h2 ⊢
    omega
  · rintro ⟨t1, p1⟩ ⟨t2, p2⟩ h1 h2
    simp only [reqLt] at h1 h2
    omega
  · rintro ⟨t1, p1⟩ ⟨t2, p2⟩ h
    simp only [reqLt]
    simp only [ne_eq] at h
    omega

/-- Witness for C4: the strict-total-order theorem applied at concrete
records, each nested hypothesis discharged by computation. -/
theorem reqLt_strict_total_order_witness :
    ¬ reqLt (5, 1) (5, 1) ∧ reqLt (3, 9) (7, 2) ∧
    ¬ reqLt (5, 2) (5, 1) ∧ (reqLt (5, 1) (5, 2) ∨ reqLt (5, 2) (5, 1)) := by
  obtain ⟨hirr, htrans, hasym, htot, _⟩ := reqLt_strict_total_order
  exact ⟨hirr (5, 1),
    htrans (3, 9) (5, 5) (7, 2) (by decide) (by decide),
    hasym (5, 1) (5, 2) (by decide),
    htot (5, 1) (5, 2) (by decide)⟩

/-- C1: `RequestAccess` grants exactly when the receiver is not
requesting or the remote record `(timestamp, id)` is lexicographically
below the receiver's own `(request_timestamp, client_id)`; otherwise it
appends the remote request to the deferred queue and returns
`granted=false`; both branches return a response whose timestamp is
`clock.increment()` taken after `clock.update(remoteTimestamp)`, and no
other coordinator field changes. -/
theorem requestAccess_spec (s : ClientState) (cid ts : Int) :
    ((requestAccess s cid ts).2.access_granted =
      (!s.requesting || reqLtb (ts, cid) (s.request_timestamp, s.client_id))) ∧
    ((requestAccess s cid ts).2.access_granted = true ↔
      (s.requesting = false ∨ reqLt (ts, cid) (s.request_timestamp, s.client_id))) ∧
    ((requestAccess s cid ts).1.deferred_requests =
      if (requestAccess s cid ts).2.access_granted then s.deferred_requests
      else s.deferred_requests ++ [(cid, ts)]) ∧
    ((requestAccess s cid ts).2.lamport_timestamp =
      clockIncrement (clockUpdate s.clock ts)) ∧
    ((requestAccess s cid ts).1.clock = clockIncrement (clockUpdate s.clock ts)) ∧
    ((requestAccess s cid ts).1.requesting = s.requesting) ∧
    ((requestAccess s cid ts).1.request_timestamp = s.request_timestamp) ∧
    ((requestAccess s cid ts).1.request_number = s.request_number) ∧
    ((requestAccess s cid ts).1.replies_received = s.replies_received) ∧
    ((requestAccess s cid ts).1.client_id = s.client_id) ∧
    ((requestAccess s cid ts).1.other_clients = s.other_clients) := by
  by_cases h : (!s.requesting ||
      reqLtb (ts, cid) (s.request_timestamp, s.client_id)) = true
  · have hg : s.requesting = false ∨ reqLt (ts, cid) (s.request_timestamp, s.client_id) := by
      rcases Bool.or_eq_true_iff.mp h with h' | h'
      · exact Or.inl (by simpa using h')
      · exact Or.inr ((reqLtb_eq_true_iff _ _).mp h')
    simp [requestAccess, h, hg]
  · have hb : (!s.requesting ||
        reqLtb (ts, cid) (s.request_timestamp, s.client_id)) = false := by
      simpa using h
    obtain ⟨h1, h2⟩ := Bool.or_eq_false_iff.mp hb
    have hreq : s.requesting = true := by simpa using h1
    have hnlt : ¬ reqLt (ts, cid) (s.request_timestamp, s.client_id) := by
      rw [← reqLtb_eq_true_iff]
      simp [h2]
    simp [requestAccess, hreq, h2, hnlt]

/-- Witness for C1: the handler evaluated at a concrete deferring state
(requesting at `(3, 2)`, inbound `(4, 1)` is not below it, so the
request is deferred). -/
theorem requestAccess_spec_witness :
    (requestAccess (initState 2 [(1, "localhost:50052")]) 1 4).2.access_granted =
      (!(initState 2 [(1, "localhost:50052")]).requesting ||
        reqLtb (4, 1) ((initState 2 [(1, "localhost:50052")]).request_timestamp,
          (initState 2 [(1, "localhost:50052")]).client_id)) :=
  (requestAccess_spec (initState 2 [(1, "localhost:50052")]) 1 4).1

/-- Peer B of the §8 tie scenario: id 2, requesting with timestamp 5. -/
def stateB : ClientState :=
  { client_id := 2
    other_clients := [(1, "localhost:50052")]
    clock := 5
    requesting := true
    request_timestamp := 5
    request_number := 1
    replies_received := 0
    deferred_requests := [] }

/-- Peer A of the §8 tie scenario: id 1, requesting with timestamp 5. -/
def stateA : ClientState :=
  { client_id := 1
    other_clients := [(2, "localhost:50053")]
    clock := 5
    requesting := true
    request_timestamp := 5
    request_number := 1
    replies_received := 0
    deferred_requests := [] }

/-- Counterexample to C3: B (id 2, requesting at `(5,2)`), receiving A's
request `(5,1)`, GRANTS it (`(5,1) < (5,2)` holds, so `should_grant` is
true) and defers nothing — not, as the claim states, deferring it and
returning `granted=false`. -/
theorem tie_counterexample :
    (requestAccess stateB 1 5).2.access_granted = true ∧
    (requestAccess stateB 1 5).1.deferred_requests = [] := by
  constructor <;> rfl

/-- C3 amended: in the two-peer tie at timestamp 5, B (id 2), upon
receiving A's request `(5,1)` while requesting at `(5,2)`, returns
`granted=true` and defers nothing; A (id 1), upon receiving B's request
`(5,2)` while requesting at `(5,1)`, defers it (appending the
`(client_id, timestamp)` pair `(2,5)` to its deferred queue) and returns
`granted=false`. -/
theorem tie_amended :
    (requestAccess stateB 1 5).2.access_granted = true ∧
    (requestAccess stateB 1 5).1.deferred_requests = [] ∧
    (requestAccess stateA 2 5).2.access_granted = false ∧
    (requestAccess stateA 2 5).1.deferred_requests = [(2, 5)] := by
  refine ⟨rfl, rfl, rfl, rfl⟩

theorem sendAccessRequest_replies (s : ClientState) (o : SendOutcome) :
    (sendAccessRequest s o).replies_received = s.replies_received + 1 := by
  cases o with
  | response resp =>
    by_cases h : resp.access_granted = true <;> simp [sendAccessRequest, h]
  | rpcError => rfl

theorem sendAccessRequest_other_clients (s : ClientState) (o : SendOutcome) :
    (sendAccessRequest s o).other_clients = s.other_clients := by
  cases o with
  | response resp =>
    by_cases h : resp.access_granted = true <;> simp [sendAccessRequest, h]
  | rpcError => rfl

theorem sendPhase_replies (s : ClientState) (outcomes : List SendOutcome) :
    (sendPhase s outcomes).replies_received =
      s.replies_received + (outcomes.length : Int) := by
  induction outcomes generalizing s with
  | nil => simp [sendPhase]
  | cons o os ih =>
    have h1 : sendPhase s (o :: os) = sendPhase (sendAccessRequest s o) os := rfl
    rw [h1, ih, sendAccessRequest_replies]
    simp only [List.length_cons]
    push_cast
    ring

theorem sendPhase_other_clients (s : ClientState) (outcomes : List SendOutcome) :
    (sendPhase s outcomes).other_clients = s.other_clients := by
  induction outcomes generalizing s with
  | nil => rfl
  | cons o os ih =>
    have h1 : sendPhase s (o :: os) = sendPhase (sendAccessRequest s o) os := rfl
    rw [h1, ih, sendAccessRequest_other_clients]

/-- C2: every outcome of one outbound access request — granted response,
deferred response, or transport failure — increments `replies_received`
by exactly one (granted and deferred have the very same state effect, so
the requester never waits for a follow-up grant after a deferred
acknowledgment), and `request_critical_section` returns exactly when
`replies_received` reaches the number of configured other peers. -/
theorem send_reply_counting_spec (s : ClientState) (o : SendOutcome) (ts : Int)
    (outcomes : List SendOutcome) :
    ((sendAccessRequest s o).replies_received = s.replies_received + 1) ∧
    (sendAccessRequest s (.response { access_granted := false, lamport_timestamp := ts }) =
      sendAccessRequest s (.response { access_granted := true, lamport_timestamp := ts })) ∧
    ((requestCriticalSection s outcomes).isSome = true ↔
      (s.other_clients.length : Int) ≤ (outcomes.length : Int)) ∧
    (∀ s', requestCriticalSection s outcomes = some s' → quorumReached s' = true) := by
  have hrep : (sendPhase (beginRequest s) outcomes).replies_received =
      (outcomes.length : Int) := by
    rw [sendPhase_replies]
    simp [beginRequest]
  have hoc : (sendPhase (beginRequest s) outcomes).other_clients = s.other_clients := by
    rw [sendPhase_other_clients]
    rfl
  have hq : quorumReached (sendPhase (beginRequest s) outcomes) = true ↔
      (s.other_clients.length : Int) ≤ (outcomes.length : Int) := by
    simp [quorumReached, hrep, hoc]
  refine ⟨sendAccessRequest_replies s o, rfl, ?_, ?_⟩
  · have hiff : (requestCriticalSection s outcomes).isSome =
        quorumReached (sendPhase (beginRequest s) outcomes) := by
      unfold requestCriticalSection
      by_cases hqq : quorumReached (sendPhase (beginRequest s) outcomes) = true
      · simp [hqq]
      · simp only [Bool.not_eq_true] at hqq
        simp [hqq]
    rw [hiff]
    exact hq
  · intro s' hs'
    unfold requestCriticalSection at hs'
    by_cases hqq : quorumReached (sendPhase (beginRequest s) outcomes) = true
    · rw [if_pos hqq] at hs'
      cases hs'
      exact hqq
    · rw [if_neg hqq] at hs'
      exact Option.noConfusion hs'

/-- Witness for C2: with two configured peers, one deferred response and
one transport error reach quorum and the wait loop exits. -/
theorem send_reply_counting_witness :
    (requestCriticalSection (initState 1 [(2, "localhost:50053"), (3, "localhost:50054")])
      [SendOutcome.response { access_granted := false, lamport_timestamp := 9 },
       SendOutcome.rpcError]).isSome = true :=
  ((send_reply_counting_spec (initState 1 [(2, "localhost:50053"), (3, "localhost:50054")])
      SendOutcome.rpcError 0
      [SendOutcome.response { access_granted := false, lamport_timestamp := 9 },
       SendOutcome.rpcError]).2.2.1).mpr (by decide)

/-- C6: with zero configured other peers, `request_critical_section`
broadcasts nothing and returns immediately: the quorum condition
`0 >= 0` already holds after the locked prologue. -/
theorem request_zero_peers (s : ClientState) (h : s.other_clients = []) :
    sentRequests (beginRequest s) = [] ∧
    requestCriticalSection s [] = some (beginRequest s) ∧
    quorumReached (beginRequest s) = true := by
  have hb : (beginRequest s).other_clients = [] := by simp [beginRequest, h]
  have hq : quorumReached (beginRequest s) = true := by
    simp [quorumReached, beginRequest, h]
  refine ⟨?_, ?_, hq⟩
  · simp [sentRequests, beginRequest, h, hb]
  · simp only [requestCriticalSection, sendPhase, List.foldl_nil]
    rw [if_pos hq]

/-- Witness for C6: a freshly constructed client with an empty peer
list. -/
theorem request_zero_peers_witness :
    requestCriticalSection (initState 7 []) [] = some (beginRequest (initState 7 [])) :=
  (request_zero_peers (initState 7 []) rfl).2.1

/-- C7: a release performed while `requesting` is already false leaves
`requesting` false and the deferred queue empty, changes no field other
than the clock (which takes one `increment`) and the two fields release
is specified to set, and a second consecutive release leaves
`requesting` and the deferred queue exactly as the first did. -/
theorem release_idempotent (s : ClientState) (h : s.requesting = false) :
    ((releaseCriticalSection s).1.requesting = false) ∧
    ((releaseCriticalSection s).1.deferred_requests = []) ∧
    ((releaseCriticalSection s).1.request_timestamp = s.request_timestamp) ∧
    ((releaseCriticalSection s).1.request_number = s.request_number) ∧
    ((releaseCriticalSection s).1.replies_received = s.replies_received) ∧
    ((releaseCriticalSection s).1.client_id = s.client_id) ∧
    ((releaseCriticalSection s).1.other_clients = s.other_clients) ∧
    ((releaseCriticalSection s).1.clock = clockIncrement s.clock) ∧
    ((releaseCriticalSection (releaseCriticalSection s).1).1.requesting =
      (releaseCriticalSection s).1.requesting) ∧
    ((releaseCriticalSection (releaseCriticalSection s).1).1.deferred_requests =
      (releaseCriticalSection s).1.deferred_requests) :=
  ⟨rfl, rfl, rfl, rfl, rfl, rfl, rfl, rfl, rfl, rfl⟩

/-- Witness for C7: a double release on a fresh (non-requesting)
client. -/
theorem release_idempotent_witness :
    (releaseCriticalSection (initState 1 [])).1.requesting = false ∧
    (releaseCriticalSection (initState 1 [])).1.deferred_requests = [] :=
  ⟨(release_idempotent (initState 1 []) rfl).1,
   (release_idempotent (initState 1 []) rfl).2.1⟩

/-- C8: `ReleaseAccess` updates the receiver's clock with the message
timestamp (then takes a fresh `increment` for the response timestamp it
computes), returns `acknowledged=true`, and leaves `requesting`,
`request_timestamp`, `request_number`, `replies_received` and the
deferred queue untouched. -/
theorem releaseAccess_frame (s : ClientState) (ts : Int) :
    ((releaseAccess s ts).2.acknowledged = true) ∧
    ((releaseAccess s ts).1.clock = clockIncrement (clockUpdate s.clock ts)) ∧
    ((releaseAccess s ts).1.requesting = s.requesting) ∧
    ((releaseAccess s ts).1.request_timestamp = s.request_timestamp) ∧
    ((releaseAccess s ts).1.request_number = s.request_number) ∧
    ((releaseAccess s ts).1.replies_received = s.replies_received) ∧
    ((releaseAccess s ts).1.deferred_requests = s.deferred_requests) ∧
    ((releaseAccess s ts).1.client_id = s.client_id) ∧
    ((releaseAccess s ts).1.other_clients = s.other_clients) :=
  ⟨rfl, rfl, rfl, rfl, rfl, rfl, rfl, rfl, rfl⟩

theorem requestAccess_requesting (s : ClientState) (cid ts : Int) :
    (requestAccess s cid ts).1.requesting = s.requesting := by
  by_cases hcond : (!s.requesting ||
      reqLtb (ts, cid) (s.request_timestamp, s.client_id)) = true
  · simp [requestAccess, hcond]
  · have hb : (!s.requesting ||
        reqLtb (ts, cid) (s.request_timestamp, s.client_id)) = false := by
      simpa using hcond
    obtain ⟨h1, h2⟩ := Bool.or_eq_false_iff.mp hb
    have hreq : s.requesting = true := by simpa using h1
    simp [requestAccess, hreq, h2]

theorem requestAccess_deferred_cases (s : ClientState) (cid ts : Int) :
    ((requestAccess s cid ts).1.deferred_requests = s.deferred_requests) ∨
    (s.requesting = true ∧
     reqLtb (ts, cid) (s.request_timestamp, s.client_id) = false ∧
     (requestAccess s cid ts).1.deferred_requests = s.deferred_requests ++ [(cid, ts)]) := by
  by_cases hcond : (!s.requesting ||
      reqLtb (ts, cid) (s.request_timestamp, s.client_id)) = true
  · left
    simp [requestAccess, hcond]
  · have hb : (!s.requesting ||
        reqLtb (ts, cid) (s.request_timestamp, s.client_id)) = false := by
      simpa using hcond
    obtain ⟨h1, h2⟩ := Bool.or_eq_false_iff.mp hb
    have hreq : s.requesting = true := by simpa using h1
    right
    refine ⟨hreq, h2, ?_⟩
    simp [requestAccess, hreq, h2]

theorem sendAccessRequest_requesting (s : ClientState) (o : SendOutcome) :
    (sendAccessRequest s o).requesting = s.requesting := by
  cases o with
  | response resp =>
    by_cases h : resp.access_granted = true <;> simp [sendAccessRequest, h]
  | rpcError => rfl

theorem sendAccessRequest_deferred (s : ClientState) (o : SendOutcome) :
    (sendAccessRequest s o).deferred_requests = s.deferred_requests := by
  cases o with
  | response resp =>
    by_cases h : resp.access_granted = true <;> simp [sendAccessRequest, h]
  | rpcError => rfl

/-- The invariant of C9: a non-empty deferred queue implies the peer is
requesting. -/
def deferredInv (s : ClientState) : Prop :=
  s.deferred_requests ≠ [] → s.requesting = true

theorem stepOp_deferredInv (s : ClientState) (op : CoordOp) (hs : deferredInv s) :
    deferredInv (stepOp s op) := by
  cases op with
  | beginReq =>
    intro _
    rfl
  | handleReq cid ts =>
    intro hne
    have hne' : (requestAccess s cid ts).1.deferred_requests ≠ [] := hne
    show (requestAccess s cid ts).1.requesting = true
    rw [requestAccess_requesting]
    rcases requestAccess_deferred_cases s cid ts with hsame | ⟨hreq, _, _⟩
    · rw [hsame] at hne'
      exact hs hne'
    · exact hreq
  | handleRel ts =>
    intro hne
    exact hs hne
  | sendResult o =>
    intro hne
    have hne' : (sendAccessRequest s o).deferred_requests ≠ [] := hne
    rw [sendAccessRequest_deferred] at hne'
    show (sendAccessRequest s o).requesting = true
    rw [sendAccessRequest_requesting]
    exact hs hne'
  | release =>
    intro hne
    exact absurd rfl hne

theorem runOps_deferredInv (s : ClientState) (ops : List CoordOp) (hs : deferredInv s) :
    deferredInv (runOps s ops) := by
  induction ops generalizing s with
  | nil => exact hs
  | cons op ops ih => exact ih _ (stepOp_deferredInv s op hs)

/-- C9: along every operation sequence from a freshly constructed
client, a non-empty deferred queue implies `requesting` is true; a
single step changes the deferred queue only by leaving it alone, by
emptying it on `release_critical_section`, or by appending the incoming
`(client_id, timestamp)` pair in the defer branch of `RequestAccess` —
which requires the peer to be requesting with its own record not above
the incoming one; and every release empties the queue. -/
theorem deferred_queue_invariant (cid0 : Int) (others : List (Int × String))
    (ops : List CoordOp) (s : ClientState) (op : CoordOp) :
    deferredInv (runOps (initState cid0 others) ops) ∧
    ((stepOp s CoordOp.release).deferred_requests = []) ∧
    ((stepOp s op).deferred_requests = s.deferred_requests ∨
     (op = CoordOp.release ∧ (stepOp s op).deferred_requests = []) ∨
     (∃ rcid rts, op = CoordOp.handleReq rcid rts ∧ s.requesting = true ∧
       reqLtb (rts, rcid) (s.request_timestamp, s.client_id) = false ∧
       (stepOp s op).deferred_requests = s.deferred_requests ++ [(rcid, rts)])) := by
  refine ⟨runOps_deferredInv _ ops (fun h => absurd rfl h), rfl, ?_⟩
  cases op with
  | beginReq => left; rfl
  | handleReq c t =>
    rcases requestAccess_deferred_cases s c t with hsame | ⟨h1, h2, h3⟩
    · left; exact hsame
    · right; right; exact ⟨c, t, rfl, h1, h2, h3⟩
  | handleRel t => left; rfl
  | sendResult o => left; exact sendAccessRequest_deferred s o
  | release => right; left; exact ⟨rfl, rfl⟩

/-- Witness for C9: the invariant evaluated on a concrete trace (a
request prologue followed by a deferred inbound request), and a concrete
release emptying the queue. -/
theorem deferred_queue_invariant_witness :
    deferredInv (runOps (initState 1 []) [CoordOp.beginReq, CoordOp.handleReq 2 5]) ∧
    (stepOp (initState 1 []) CoordOp.release).deferred_requests = [] :=
  ⟨(deferred_queue_invariant 1 [] [CoordOp.beginReq, CoordOp.handleReq 2 5]
      (initState 1 []) CoordOp.release).1,
   (deferred_queue_invariant 1 [] [CoordOp.beginReq, CoordOp.handleReq 2 5]
      (initState 1 []) CoordOp.release).2.1⟩

/-- Counterexample to C10: not every access of a shared coordinator
field happens under the lock — in particular, `RequestAccess` performs
its `clock.update(request.lamport_timestamp)` at `client.py` line 46
before entering the `with self.client.lock:` block. -/
theorem lock_discipline_counterexample :
    ((accessTable.all fun a => a.underLock) = false) ∧
    (accessTable.contains
      ⟨CodePath.requestAccessHandler, 46, SField.clockF, AccessMode.write, false⟩ = true) := by
  decide

/-- C10 amended: every access to `requesting`, `request_timestamp`,
`replies_received` and the deferred queue in the inbound handlers and
the request/send/release paths is performed under the lock, but the
Lamport clock is accessed outside the lock (the `update` at the entry of
both inbound handlers, the `update`s from outbound responses, the
`increment` in `send_to_printer`, and the `get_time` reads of `log`
call sites outside the lock), and `show_status` reads `requesting` and
the deferred queue outside the lock. -/
theorem lock_discipline_amended :
    (accessTable.all fun a =>
      a.underLock || (a.field == SField.clockF || a.path == CodePath.showStatus)) = true ∧
    (accessTable.contains
      ⟨CodePath.releaseAccessHandler, 92, SField.clockF, AccessMode.write, false⟩ = true) ∧
    (accessTable.contains
      ⟨CodePath.sendAccessReq, 223, SField.clockF, AccessMode.write, false⟩ = true) ∧
    (accessTable.contains
      ⟨CodePath.sendToPrinter, 300, SField.clockF, AccessMode.write, false⟩ = true) ∧
    (accessTable.contains
      ⟨CodePath.showStatus, 384, SField.requestingF, AccessMode.read, false⟩ = true) := by
  decide

end DistributedPrinting
